import Mathlib

/-!
Verification of `pycytominer/operations/transform.py`.

The module defines two sklearn-style transformers:

* `Spherize` — learns a whitening (sphering) projection matrix `W` from a
  reference matrix via SVD, with four variants (PCA, ZCA, PCA-cor, ZCA-cor);
* `RobustMAD` — learns per-column median and median absolute deviation and
  rescales new data by `(x - median) / (mad + epsilon)`.

Shallow embedding conventions:

* numeric values are exact rationals `ℚ` (the Python code uses floats; all the
  claims under consideration concern control flow and exact algebraic
  identities, not rounding);
* matrices are row-major lists of lists, `Mat := List (List ℚ)`;
* `np.linalg.matrix_rank` is modelled by exact Gaussian-elimination row rank
  (`rankQ`), the exact-arithmetic meaning of numerical rank;
* `np.linalg.svd` and `np.sqrt` are external library calls whose results are
  irrational in general, so they are passed to `Spherize.fit` as oracle
  parameters (`svd : Mat → SVDResult`, `sqrtq : ℚ → ℚ`); theorems quantify
  over them, adding well-formedness hypotheses (e.g. the singular-value vector
  has length `min n d`) where numpy guarantees them;
* Python exceptions are an explicit error type `PyError`; `assert` failures
  are `PyError.assertionFailure`;
* Python attribute mutation (`self.standard_scaler = ...`) is explicit state
  passing: `fit` returns the updated object together with an optional error,
  so a failing `fit` still reports which attributes were written before the
  exception, exactly as in Python.
-/

/-- Row-major rational matrix, the embedding of a 2-d numpy array. -/
abbrev Mat : Type := List (List ℚ)

/-- Number of rows (`X.shape[0]`). -/
def numRows (m : Mat) : ℕ := m.length

/-- Number of columns (`X.shape[1]`); for the row-major list model this is the
length of the first row (0 for an empty matrix). -/
def numCols (m : Mat) : ℕ :=
  match m with
  | [] => 0
  | r :: _ => r.length

/-- Column `j` of a matrix, read with default 0 (rows are rectangular in every
real dataframe, so the default is never exercised under the rectangularity
hypotheses of the theorems). -/
def matCol (m : Mat) (j : ℕ) : List ℚ := m.map (fun r => r.getD j 0)

/-- Matrix transpose. -/
def transposeM (m : Mat) : Mat :=
  (List.range (numCols m)).map (fun j => m.map (fun r => r.getD j 0))

/-- Dot product of two rows. -/
def dotQ (a b : List ℚ) : ℚ := (List.zipWith (· * ·) a b).sum

/-- Unchecked matrix product (used only where dimensions are known to agree). -/
def matMul (a b : Mat) : Mat :=
  a.map (fun r => (transposeM b).map (fun c => dotQ r c))

/-- `a @ b` in numpy: raises (here: `none`) when the inner dimensions do not
agree, i.e. when some row of `a` does not have length `numRows b`. -/
def matMulChecked (a b : Mat) : Option Mat :=
  if a.all (fun r => r.length = b.length) then some (matMul a b) else none

/-- Multiply every entry by a scalar. -/
def scalarMul (c : ℚ) (m : Mat) : Mat := m.map (fun r => r.map (fun x => x * c))

/-- Arithmetic mean of a list (`0` for the empty list, since `0 / 0 = 0` in ℚ). -/
def colMean (l : List ℚ) : ℚ := l.sum / l.length

/-- Population variance of a list (ddof = 0), as used by sklearn's
`StandardScaler` (which delegates to numpy's default variance). -/
def colVar (l : List ℚ) : ℚ :=
  ((l.map (fun x => (x - colMean l) ^ 2)).sum) / l.length

/-- One elimination step of Gaussian elimination: subtract the multiple of the
pivot row `p` that zeroes entry `j` of row `r`. -/
def elimRow (p : List ℚ) (j : ℕ) (r : List ℚ) : List ℚ :=
  List.zipWith (fun x y => x - (r.getD j 0 / p.getD j 0) * y) r p

/-- Fuel-indexed Gaussian elimination computing the row rank: drop zero rows,
otherwise count the pivot row and eliminate its pivot column from the rest. -/
def rankAux : ℕ → List (List ℚ) → ℕ
  | _, [] => 0
  | 0, _ => 0
  | fuel + 1, r :: rest =>
    match r.findIdx? (fun x => decide (x ≠ 0)) with
    | none => rankAux fuel rest
    | some j => 1 + rankAux fuel (rest.map (elimRow r j))

/-- Exact row rank of a rational matrix: the shallow embedding of
`np.linalg.matrix_rank` (numerical rank via singular-value thresholding, which
on exact data is exact rank). -/
def rankQ (m : Mat) : ℕ := rankAux m.length m

/-- The state sklearn's `StandardScaler` stores at fit time: per-column mean,
population variance, and scale (the square root of the variance). -/
structure ScalerState where
  mean : List ℚ
  var : List ℚ
  scale : List ℚ
  deriving DecidableEq

/-- `StandardScaler().fit(X)`: record per-column mean, variance and scale.
`sqrtq` is the `np.sqrt` oracle. -/
def scalerFit (sqrtq : ℚ → ℚ) (x : Mat) : ScalerState :=
  let d := numCols x
  let means := (List.range d).map (fun j => colMean (matCol x j))
  let vars := (List.range d).map (fun j => colVar (matCol x j))
  { mean := means, var := vars, scale := vars.map sqrtq }

/-- The Python exceptions the embedded code can raise, one constructor per
raise site family. -/
inductive PyError where
  /-- `ValueError` from `Spherize.__init__` (bad method, or "-cor" without
  centering): the spec's `ConfigurationError`. -/
  | configError : PyError
  /-- `ValueError` "Divide by zero error, make sure low variance columns are
  removed": the spec's `DegenerateInputError`. -/
  | degenerateInput : PyError
  /-- `ValueError` "Sphering is not supported when the data matrix X is not
  full rank ...": the spec's `RankDeficiencyError`. -/
  | rankDeficiency : PyError
  /-- A failing Python `assert` statement. -/
  | assertionFailure : PyError
  /-- A dimension-mismatch `ValueError` raised inside numpy's `@` or sklearn's
  scaler `transform` (a library error, not a check written in this module). -/
  | shapeError : PyError
  /-- `AttributeError`: accessing a fitted attribute that was never assigned. -/
  | attributeError : PyError
  deriving DecidableEq

/-- `StandardScaler.transform`: subtract the stored mean and divide by the
stored scale, column-wise; sklearn validates that the width of `X` matches the
fitted number of features and raises otherwise. -/
def scalerTransform (sc : ScalerState) (x : Mat) : Except PyError Mat :=
  if x.all (fun r => r.length = sc.mean.length) then
    Except.ok (x.map (fun r =>
      List.zipWith (fun v ms => (v - ms.1) / ms.2) r (sc.mean.zip sc.scale)))
  else
    Except.error PyError.shapeError

/-- `StandardScaler(with_mean=True, with_std=False).fit(X).mean_`. -/
def centererFit (x : Mat) : List ℚ :=
  (List.range (numCols x)).map (fun j => colMean (matCol x j))

/-- Mean-only `StandardScaler.transform`: subtract the stored mean, with the
same width validation as the full scaler. -/
def centererTransform (means : List ℚ) (x : Mat) : Except PyError Mat :=
  if x.all (fun r => r.length = means.length) then
    Except.ok (x.map (fun r => List.zipWith (fun v mu => v - mu) r means))
  else
    Except.error PyError.shapeError

/-- Result of `np.linalg.svd(X, full_matrices=True)`, restricted to the two
components the code uses: the singular-value vector and `Vt`. -/
structure SVDResult where
  Sigma : List ℚ
  Vt : Mat
  deriving DecidableEq

/-- The mutable attributes of a `Spherize` instance.  The three `Option`
fields are Python attributes that exist only once assigned. -/
structure SpherizeObj where
  epsilon : ℚ
  center : Bool
  method : String
  return_numpy : Bool
  standard_scaler : Option ScalerState := none
  mean_centerer : Option (List ℚ) := none
  W : Option Mat := none
  deriving DecidableEq

/-- `avail_methods` from `Spherize.__init__`. -/
def availMethods : List String := ["PCA", "ZCA", "PCA-cor", "ZCA-cor"]

/-- The methods whitening the correlation matrix. -/
def corMethods : List String := ["PCA-cor", "ZCA-cor"]

/-- The methods that rotate back into the original coordinates. -/
def zcaMethods : List String := ["ZCA", "ZCA-cor"]

/-- The methods whose transform relabels columns as principal components. -/
def pcaMethods : List String := ["PCA", "PCA-cor"]

/-- `Spherize.__init__`: validate the method name, then the
center/"-cor" compatibility; on success the instance has no fitted
attributes yet. -/
def Spherize.init (epsilon : ℚ) (center : Bool) (method : String)
    (return_numpy : Bool) : Except PyError SpherizeObj :=
  if method ∉ availMethods then
    Except.error PyError.configError
  else if method ∈ corMethods ∧ ¬center then
    Except.error PyError.configError
  else
    Except.ok { epsilon := epsilon, center := center, method := method,
                return_numpy := return_numpy }

/-- Lines 82–100 of `Spherize.fit`: the centering / standardization step.
Returns the object (whose scaler attributes may have been assigned even when
an error follows, exactly as in Python) together with the preprocessed matrix
or the error raised. -/
def Spherize.preprocess (sqrtq : ℚ → ℚ) (obj : SpherizeObj) (xv : Mat) :
    SpherizeObj × Except PyError Mat :=
  if obj.method ∈ corMethods then
    let sc := scalerFit sqrtq xv
    let obj1 := { obj with standard_scaler := some sc }
    if sc.var.any (fun v => decide (v = 0)) then
      (obj1, Except.error PyError.degenerateInput)
    else
      (obj1, scalerTransform sc xv)
  else if obj.center then
    let mc := centererFit xv
    let obj1 := { obj with mean_centerer := some mc }
    (obj1, centererTransform mc xv)
  else
    (obj, Except.ok xv)

/-- Lines 125–139 of `Spherize.fit`: add epsilon to the (already extended)
singular values, build `W = (Vt / Sigma[:, None]).T * sqrt(n - 1)`, perform
the additional ZCA rotation (guarded by `assert r == d`), and run the final
shape assertion `W.shape[1] == d`. -/
def Spherize.fitFinish (sqrtq : ℚ → ℚ) (obj1 : SpherizeObj) (n d r : ℕ)
    (sigma : List ℚ) (vt : Mat) : SpherizeObj × Option PyError :=
  let sigma' := sigma.map (fun s => s + obj1.epsilon)
  let w0 := scalarMul (sqrtq ((n : ℚ) - 1))
    (transposeM (List.zipWith (fun row s => row.map (fun x => x / s)) vt sigma'))
  let obj2 := { obj1 with W := some w0 }
  if obj1.method ∈ zcaMethods then
    if r ≠ d then
      (obj2, some PyError.assertionFailure)
    else if w0.all (fun row => row.length = vt.length) then
      let w1 := matMul w0 vt
      let obj3 := { obj2 with W := some w1 }
      if numCols w1 ≠ d then (obj3, some PyError.assertionFailure)
      else (obj3, none)
    else
      (obj2, some PyError.shapeError)
  else
    if numCols w0 ≠ d then (obj2, some PyError.assertionFailure)
    else (obj2, none)

/-- Lines 102–141 of `Spherize.fit`, run on the preprocessing outcome: on a
preprocessing error re-raise it, otherwise rank gate, SVD, the `n ≤ d`
singular-value extension (with its two asserts), then `fitFinish`.  Integer
comparisons with `n - 1` are taken in `ℤ`, as in Python. -/
def Spherize.fitCore (sqrtq : ℚ → ℚ) (svd : Mat → SVDResult)
    (obj1 : SpherizeObj) : Except PyError Mat → SpherizeObj × Option PyError
  | Except.error e => (obj1, some e)
  | Except.ok xc =>
    let n := numRows xc
    let d := numCols xc
    let r := rankQ xc
    if (r : ℤ) ≠ (n : ℤ) - 1 ∧ r ≠ d then
      (obj1, some PyError.rankDeficiency)
    else
      let res := svd xc
      if n ≤ d then
        if res.Sigma.length ≠ n then
          (obj1, some PyError.assertionFailure)
        else if (r : ℤ) ≠ (n : ℤ) - 1 then
          (obj1, some PyError.assertionFailure)
        else
          let sigma1 := res.Sigma.take r ++
            List.replicate (d - r) (res.Sigma.getD (r - 1) 0)
          Spherize.fitFinish sqrtq obj1 n d r sigma1 res.Vt
      else
        Spherize.fitFinish sqrtq obj1 n d r res.Sigma res.Vt

/-- `Spherize.fit` (lines 66–141): preprocessing followed by `fitCore`. -/
def Spherize.fit (sqrtq : ℚ → ℚ) (svd : Mat → SVDResult) (obj : SpherizeObj)
    (x : Mat) : SpherizeObj × Option PyError :=
  let p := Spherize.preprocess sqrtq obj x
  Spherize.fitCore sqrtq svd p.1 p.2

/-- Labelled table handed to `Spherize.transform` (the code reads
`X.columns` and `X.values` and nothing else of the dataframe). -/
structure DataFrame where
  columns : List String
  values : Mat
  deriving DecidableEq

/-- `transform`'s result: a raw matrix when `return_numpy` is set, otherwise a
labelled dataframe. -/
inductive SpherizeOutput where
  | raw : Mat → SpherizeOutput
  | df : DataFrame → SpherizeOutput
  deriving DecidableEq

/-- The numeric content of a `transform` result, independent of the output
representation. -/
def SpherizeOutput.vals : SpherizeOutput → Mat
  | SpherizeOutput.raw m => m
  | SpherizeOutput.df f => f.values

/-- `["PC1", ..., "PCk"]`. -/
def pcLabels (k : ℕ) : List String :=
  (List.range k).map (fun i => "PC" ++ toString (i + 1))

/-- `self.standard_scaler.transform(X)` where the attribute may be unset
(`AttributeError` in Python). -/
def scalerTransformOpt : Option ScalerState → Mat → Except PyError Mat
  | none, _ => Except.error PyError.attributeError
  | some sc, xv => scalerTransform sc xv

/-- `self.mean_centerer.transform(X)` where the attribute may be unset. -/
def centererTransformOpt : Option (List ℚ) → Mat → Except PyError Mat
  | none, _ => Except.error PyError.attributeError
  | some mc, xv => centererTransform mc xv

/-- Lines 164–168 of `Spherize.transform`: reapply the stored scaler (for the
"-cor" variants) or the stored mean (when centering), or nothing. -/
def Spherize.scaledQuery (obj : SpherizeObj) (xv : Mat) : Except PyError Mat :=
  if obj.method ∈ corMethods then
    scalerTransformOpt obj.standard_scaler xv
  else if obj.center then
    centererTransformOpt obj.mean_centerer xv
  else
    Except.ok xv

/-- Line 173 onward of `Spherize.transform`: `X @ self.W` (an unset `W` is an
`AttributeError`, a width mismatch raises inside numpy's `@`), wrapped per
`return_numpy`. -/
def Spherize.project (return_numpy : Bool) (columns' : List String) :
    Option Mat → Mat → Except PyError SpherizeOutput
  | none, _ => Except.error PyError.attributeError
  | some w, xs =>
    if xs.all (fun r => r.length = w.length) then
      Except.ok (if return_numpy then SpherizeOutput.raw (matMul xs w)
        else SpherizeOutput.df { columns := columns', values := matMul xs w })
    else
      Except.error PyError.shapeError

/-- Lines 159–178 of `Spherize.transform` after the scaling step: relabel the
columns for PCA-family methods, then project. -/
def Spherize.transformCore (obj : SpherizeObj) (columns : List String) :
    Except PyError Mat → Except PyError SpherizeOutput
  | Except.error e => Except.error e
  | Except.ok xs =>
    let columns' := if obj.method ∈ pcaMethods then pcLabels (numCols xs)
      else columns
    Spherize.project obj.return_numpy columns' obj.W xs

/-- `Spherize.transform` (lines 143–178). -/
def Spherize.transform (obj : SpherizeObj) (x : DataFrame) :
    Except PyError SpherizeOutput :=
  Spherize.transformCore obj x.columns (Spherize.scaledQuery obj x.values)

/-- Insert into a sorted list of rationals. -/
def insertSorted (x : ℚ) : List ℚ → List ℚ
  | [] => [x]
  | y :: ys => if x ≤ y then x :: y :: ys else y :: insertSorted x ys

/-- Insertion sort (ascending) for rationals. -/
def sortQ (l : List ℚ) : List ℚ := l.foldr insertSorted []

/-- Median of an already sorted list: middle element for odd length, average
of the two middle elements for even length, `none` when empty (pandas and
scipy return NaN there). -/
def medianSorted (s : List ℚ) : Option ℚ :=
  if s.length = 0 then none
  else if s.length % 2 = 1 then some (s.getD (s.length / 2) 0)
  else some ((s.getD (s.length / 2 - 1) 0 + s.getD (s.length / 2) 0) / 2)

/-- Median of a list of rationals. -/
def medianQ (l : List ℚ) : Option ℚ := medianSorted (sortQ l)

/-- Labelled table with possibly missing (NaN) cells, as handed to
`RobustMAD`; `RobustMAD` tolerates missing values per column. -/
structure MADFrame where
  columns : List String
  values : List (List (Option ℚ))
  deriving DecidableEq

/-- The `scale` argument passed to `scipy.stats.median_abs_deviation`,
`1 / 1.4826`, which scipy applies as a divisor to the raw MAD. -/
def madScaleFactor : ℚ := 1 / 1.4826

/-- Column `j` of a `MADFrame`. -/
def frameCol (x : MADFrame) (j : ℕ) : List (Option ℚ) :=
  x.values.map (fun r => r.getD j none)

/-- Drop the missing entries of a column (`nan_policy="omit"` / pandas
`skipna`). -/
def colClean (c : List (Option ℚ)) : List ℚ := c.filterMap id

/-- Per-column median with missing values omitted (pandas `X.median()`). -/
def colMedian (c : List (Option ℚ)) : Option ℚ := medianQ (colClean c)

/-- `scipy.stats.median_abs_deviation(col, nan_policy="omit",
scale=1/1.4826)`: the median of absolute deviations from the median, divided
by the scale. -/
def colMAD (c : List (Option ℚ)) : Option ℚ :=
  match colMedian c with
  | none => none
  | some m =>
    (medianQ ((colClean c).map (fun v => |v - m|))).map
      (fun raw => raw / madScaleFactor)

/-- The fitted state of `RobustMAD`: per-column median and MAD, keyed by the
fit-time column identities. -/
structure MADState where
  epsilon : ℚ
  index : List String
  median : List (Option ℚ)
  mad : List (Option ℚ)
  deriving DecidableEq

/-- `RobustMAD.fit` (lines 195–216). -/
def RobustMAD.fit (eps : ℚ) (x : MADFrame) : MADState :=
  { epsilon := eps,
    index := x.columns,
    median := (List.range x.columns.length).map (fun j => colMedian (frameCol x j)),
    mad := (List.range x.columns.length).map (fun j => colMAD (frameCol x j)) }

/-- Label-based lookup in a pandas `Series` given as an index list plus a
value list: `none` both for an absent label and for a stored NaN. -/
def serGet (idx : List String) (vals : List (Option ℚ)) (c : String) :
    Option ℚ :=
  match idx.indexOf? c with
  | none => none
  | some i => vals.getD i none

/-- One cell of `(X - median) / (mad + epsilon)`: NaN (`none`) propagates
through subtraction, addition and division, as in pandas; a zero denominator
`mad + epsilon = 0` makes the float division produce a non-finite value
(`0.0/0.0 = NaN`, `x/0.0 = ±inf`), modelled as `none` — never a rational. -/
def madCell (x m md : Option ℚ) (eps : ℚ) : Option ℚ :=
  match x, m, md with
  | some xv, some mv, some mdv =>
      if mdv + eps = 0 then none else some ((xv - mv) / (mdv + eps))
  | _, _, _ => none

/-- Union of two label lists: pandas' alignment of two different indexes.
(pandas returns the union sorted lexicographically; this model keeps the
first-occurrence order — only membership in the union is relevant to the
behavior under study, every unmatched label yielding a NaN column either
way.) -/
def unionCols (a b : List String) : List String := (a ++ b).dedup

/-- `RobustMAD.transform` (lines 218–231): pandas-style arithmetic
`(X - median) / (mad + epsilon)`.  With identical column labels the
operation is positional; otherwise pandas aligns on the sorted union of the
labels, and any label missing on either side yields a NaN column.  Note this
operation never raises: there is no shape or identity validation. -/
def RobustMAD.transform (st : MADState) (x : MADFrame) : MADFrame :=
  if x.columns = st.index then
    { columns := x.columns,
      values := x.values.map (fun row =>
        (List.range st.index.length).map (fun j =>
          madCell (row.getD j none) (st.median.getD j none)
            (st.mad.getD j none) st.epsilon)) }
  else
    let cols := unionCols x.columns st.index
    { columns := cols,
      values := x.values.map (fun row => cols.map (fun c =>
        madCell (serGet x.columns row c) (serGet st.index st.median c)
          (serGet st.index st.mad c) st.epsilon)) }

/-- Following the spec's words (§4.1 fit steps 4–5): Σ is extended, when
`n ≤ d`, to length `d` by repeating its `r`-th (1-indexed) entry for the
remaining `d - r` positions, then `epsilon` is added to every entry. -/
def specSigma (sigma : List ℚ) (n d r : ℕ) (eps : ℚ) : List ℚ :=
  let ext := if n ≤ d then
      sigma.take r ++ List.replicate (d - r) (sigma.getD (r - 1) 0)
    else sigma
  ext.map (fun s => s + eps)

/-- Following the spec's words (§4.1 fit steps 6–7): the projection matrix
`W = transpose(Vᵗ / Σ) * sqrt(n - 1)`, right-multiplied by `Vᵗ` for the ZCA
variants. -/
def specW (sigma : List ℚ) (vt : Mat) (n d r : ℕ) (eps : ℚ)
    (sqrtq : ℚ → ℚ) (method : String) : Mat :=
  let s := specSigma sigma n d r eps
  let w := scalarMul (sqrtq ((n : ℚ) - 1))
    (transposeM (List.zipWith (fun row sv => row.map (fun v => v / sv)) vt s))
  if method ∈ zcaMethods then matMul w vt else w

/-- Following the spec's words (§4.1 transform step 1): reapply the exact
centering/standardization learned at fit time — the stored mean and scale for
the "-cor" variants, the stored mean alone when centering, nothing otherwise;
`none` when the needed parameters were never learned or the width disagrees. -/
def specApplyStored (obj : SpherizeObj) (xv : Mat) : Option Mat :=
  if obj.method ∈ corMethods then
    match obj.standard_scaler with
    | none => none
    | some sc =>
      if xv.all (fun r => r.length = sc.mean.length) then
        some (xv.map (fun r =>
          List.zipWith (fun v ms => (v - ms.1) / ms.2) r (sc.mean.zip sc.scale)))
      else none
  else if obj.center then
    match obj.mean_centerer with
    | none => none
    | some mc =>
      if xv.all (fun r => r.length = mc.length) then
        some (xv.map (fun r => List.zipWith (fun v mu => v - mu) r mc))
      else none
  else some xv

/-! ### Helper lemmas about the fit pipeline -/

/-- Reference matrix with two identical columns (columns 2 and 3), 4 rows,
rank 2 = d - 1 ≠ n - 1. -/
def C1x : Mat := [[1,0,0],[0,1,1],[0,0,0],[0,0,0]]

/-- A `Spherize` instance as produced by `Spherize.init 0 false "PCA" false`. -/
def objPCAplain : SpherizeObj :=
  { epsilon := 0, center := false, method := "PCA", return_numpy := false }

/-- Full-column-rank 3×2 reference matrix for the PCA witness. -/
def C2x : Mat := [[1,0],[0,1],[0,0]]

/-- 3×3 uncentered reference matrix of rank 2 = n - 1 ≠ d: it passes the rank
gate, yet the ZCA assertion `r == d` fails. -/
def C3x : Mat := [[1,0,0],[0,1,0],[1,1,0]]

/-- A `Spherize` instance as produced by `Spherize.init 0 false "ZCA" false`. -/
def objZCAplain : SpherizeObj :=
  { epsilon := 0, center := false, method := "ZCA", return_numpy := false }

/-- A fitted PCA instance (no centering) with identity projection matrix. -/
def objC45 : SpherizeObj :=
  { epsilon := 0, center := false, method := "PCA", return_numpy := false,
    W := some [[1,0],[0,1]] }

/-- A 1×2 query dataframe. -/
def xq45 : DataFrame := { columns := ["a","b"], values := [[1,2]] }

/-- A `Spherize` instance as produced by `Spherize.init 0 true "PCA" false`. -/
def objPCAcent : SpherizeObj :=
  { epsilon := 0, center := true, method := "PCA", return_numpy := false }

/-- The sqrt oracle used in the concrete scenarios. -/
def sq1 : ℚ → ℚ := fun _ => 1

/-- The SVD oracle used in the concrete scenarios. -/
def svdId2 : Mat → SVDResult := fun _ => SVDResult.mk [1,1] [[1,0],[0,1]]

/-- The mean-centered version of `C2x`. -/
def C10xc : Mat := [[2/3,-1/3],[-1/3,2/3],[-1/3,-1/3]]

/-- A 5×2 reference matrix with two identical columns: its centered version
has rank 1, which is neither `d = 2` nor `n - 1 = 4`. -/
def C10xb : Mat := [[1,1],[2,2],[0,0],[0,0],[0,0]]

/-- The mean-centered version of `C10xb`. -/
def C10xbc : Mat := [[2/5,2/5],[7/5,7/5],[-3/5,-3/5],[-3/5,-3/5],[-3/5,-3/5]]

/-- The instance state after the successful first fit. -/
def objAfterFit1 : SpherizeObj :=
  { epsilon := 0, center := true, method := "PCA", return_numpy := false,
    mean_centerer := some [1/3, 1/3], W := some [[1,0],[0,1]] }

/-- The instance state after the failing second fit: the mean centerer was
overwritten, the projection matrix is stale. -/
def objAfterFit2 : SpherizeObj :=
  { epsilon := 0, center := true, method := "PCA", return_numpy := false,
    mean_centerer := some [3/5, 3/5], W := some [[1,0],[0,1]] }

/-- A reference frame for `RobustMAD`: one column "a" with values 1, 2, 3. -/
def madX0 : MADFrame := { columns := ["a"], values := [[some 1],[some 2],[some 3]] }

/-- A constant reference column: its MAD is exactly zero. -/
def madConstX : MADFrame := { columns := ["a"], values := [[some 3],[some 3],[some 3]] }

/-- A fitted `RobustMAD` state over the single column "a". -/
def madSt0 : MADState := { epsilon := 0, index := ["a"], median := [some 2], mad := [some 1] }

/-- Following the spec's words (§4.2): the MAD with the robust-consistency
scale factor `1/1.4826` applied as a divisor, i.e. the raw median absolute
deviation multiplied by 1.4826, with missing values omitted. -/
def specMAD (c : List (Option ℚ)) : Option ℚ :=
  match medianQ (colClean c) with
  | none => none
  | some m =>
    (medianQ ((colClean c).map (fun v => |v - m|))).map (fun raw => raw * 1.4826)

/-- A `Spherize` instance as produced by `Spherize.init 0 true "PCA-cor" false`. -/
def objPCAcor : SpherizeObj :=
  { epsilon := 0, center := true, method := "PCA-cor", return_numpy := false }

/-- 2×2 reference matrix whose second column has exactly zero variance. -/
def C7x1 : Mat := [[1,1],[2,1]]

/-- 2×2 reference matrix with unit variance in both columns. -/
def C7x2 : Mat := [[0,0],[2,2]]

/-- A square-root oracle exact on the variances of `C7x1`. -/
def sqrtC7a : ℚ → ℚ := fun v => if v = 1/4 then 1/2 else 0

theorem fit_eq (sqrtq : ℚ → ℚ) (svd : Mat → SVDResult) (obj : SpherizeObj)
    (x : Mat) :
    Spherize.fit sqrtq svd obj x =
      Spherize.fitCore sqrtq svd (Spherize.preprocess sqrtq obj x).1
        (Spherize.preprocess sqrtq obj x).2 := rfl

theorem preprocess_plain (sqrtq : ℚ → ℚ) (obj : SpherizeObj) (xv : Mat)
    (h1 : obj.method ∉ corMethods) (h2 : obj.center = false) :
    Spherize.preprocess sqrtq obj xv = (obj, Except.ok xv) := by
  simp [Spherize.preprocess, h1, h2]

theorem preprocess_center (sqrtq : ℚ → ℚ) (obj : SpherizeObj) (xv : Mat)
    (h1 : obj.method ∉ corMethods) (h2 : obj.center = true) :
    Spherize.preprocess sqrtq obj xv =
      ({ obj with mean_centerer := some (centererFit xv) },
        centererTransform (centererFit xv) xv) := by
  simp [Spherize.preprocess, h1, h2]

/-- `fitFinish` never raises the rank-deficiency or degenerate-input errors:
its error outcomes are assertion failures and library shape errors only. -/
theorem fitFinish_errors (sqrtq : ℚ → ℚ) (obj1 : SpherizeObj) (n d r : ℕ)
    (sigma : List ℚ) (vt : Mat) :
    (Spherize.fitFinish sqrtq obj1 n d r sigma vt).2 ≠ some PyError.rankDeficiency ∧
      (Spherize.fitFinish sqrtq obj1 n d r sigma vt).2 ≠ some PyError.degenerateInput := by
  simp only [Spherize.fitFinish]
  split_ifs <;> simp

/-- `fitCore` on successfully preprocessed data raises the rank-deficiency
error exactly when the rank gate condition of line 110 holds. -/
theorem fitCore_rank_gate (sqrtq : ℚ → ℚ) (svd : Mat → SVDResult)
    (obj1 : SpherizeObj) (xc : Mat) :
    (Spherize.fitCore sqrtq svd obj1 (Except.ok xc)).2 = some PyError.rankDeficiency ↔
      ((rankQ xc : ℤ) ≠ (numRows xc : ℤ) - 1 ∧ rankQ xc ≠ numCols xc) := by
  simp only [Spherize.fitCore]
  split_ifs with h1 h2 h3 h4
  · simp [h1]
  · simp [h2, h1]
  · simp [h1, h2, h3, h4]
    tauto
  · simpa [h1] using (fitFinish_errors sqrtq obj1 _ _ _ _ _).1
  · simpa [h1] using (fitFinish_errors sqrtq obj1 _ _ _ _ _).1

/-- Claim C1: after a successful centering/standardization step producing the
matrix `xc` with `n` rows, `d` columns and rank `r`, `Spherize.fit` raises the
rank-deficiency error exactly when `r ≠ d` and `r ≠ n - 1`; in particular a
matrix of rank `d - 1` (e.g. one with two identical columns) with
`d ≥ 1` and `d - 1 ≠ n - 1` is rejected at fit. -/
theorem C1_rank_gate (sqrtq : ℚ → ℚ) (svd : Mat → SVDResult)
    (obj obj1 : SpherizeObj) (x xc : Mat)
    (hpre : Spherize.preprocess sqrtq obj x = (obj1, Except.ok xc)) :
    ((Spherize.fit sqrtq svd obj x).2 = some PyError.rankDeficiency ↔
      ((rankQ xc : ℤ) ≠ (numRows xc : ℤ) - 1 ∧ rankQ xc ≠ numCols xc))
    ∧ (rankQ xc = numCols xc - 1 → 1 ≤ numCols xc →
        (rankQ xc : ℤ) ≠ (numRows xc : ℤ) - 1 →
        (Spherize.fit sqrtq svd obj x).2 = some PyError.rankDeficiency) := by
  rw [fit_eq, hpre]
  refine ⟨fitCore_rank_gate sqrtq svd obj1 xc, ?_⟩
  intro hr hd hne
  rw [fitCore_rank_gate sqrtq svd obj1 xc]
  refine ⟨hne, ?_⟩
  rw [hr]
  omega

theorem C1_rank_gate_witness :
    rankQ C1x = numCols C1x - 1 ∧ 1 ≤ numCols C1x ∧
    (Spherize.fit (fun _ => 1) (fun _ => ⟨[1,1,1],[[1,0,0],[0,1,0],[0,0,1]]⟩)
      objPCAplain C1x).2 = some PyError.rankDeficiency := by
  have hpre : Spherize.preprocess (fun _ => 1) objPCAplain C1x =
      (objPCAplain, Except.ok C1x) :=
    preprocess_plain _ _ _ (by simp [objPCAplain, corMethods]) rfl
  have hr : rankQ C1x = 2 := by
    norm_num [C1x, rankQ, rankAux, elimRow, List.findIdx?_cons]
  have hd : numCols C1x = 3 := by simp [C1x, numCols]
  have hn : numRows C1x = 4 := by simp [C1x, numRows]
  refine ⟨by rw [hr, hd], by rw [hd]; norm_num, ?_⟩
  exact (C1_rank_gate _ _ _ _ _ _ hpre).2 (by rw [hr, hd]) (by rw [hd]; norm_num)
    (by rw [hr, hn]; norm_num)

/-- Claim C6: constructing a `Spherize` fails with the configuration error
exactly when the method is not one of the four supported ones, or the method
is a "-cor" variant while centering is disabled; in particular
`method="PCA-cor", center=False` fails for every epsilon. -/
theorem C6_init_validation :
    (∀ (eps : ℚ) (center : Bool) (method : String) (rn : Bool),
      Spherize.init eps center method rn = Except.error PyError.configError ↔
        (method ∉ availMethods ∨ (method ∈ corMethods ∧ center = false)))
    ∧ (∀ (eps : ℚ) (rn : Bool),
      Spherize.init eps false "PCA-cor" rn = Except.error PyError.configError) := by
  constructor
  · intro eps center method rn
    cases center <;> by_cases hA : method ∈ availMethods <;>
      by_cases hB : method ∈ corMethods <;>
      simp [Spherize.init, hA, hB]
  · intro eps rn
    simp [Spherize.init, availMethods, corMethods]

/-- Preprocessing only assigns the scaler attributes: the configuration
fields and the projection matrix `W` are untouched. -/
theorem preprocess_config (sqrtq : ℚ → ℚ) (obj : SpherizeObj) (xv : Mat) :
    ((Spherize.preprocess sqrtq obj xv).1.epsilon = obj.epsilon) ∧
    ((Spherize.preprocess sqrtq obj xv).1.method = obj.method) ∧
    ((Spherize.preprocess sqrtq obj xv).1.center = obj.center) ∧
    ((Spherize.preprocess sqrtq obj xv).1.return_numpy = obj.return_numpy) ∧
    ((Spherize.preprocess sqrtq obj xv).1.W = obj.W) := by
  simp only [Spherize.preprocess]
  split_ifs <;> simp

/-- On success, `fitFinish` stores exactly the projection matrix
`W = (Vt / (Sigma + eps)).T * sqrt(n-1)`, right-multiplied by `Vt` for the
ZCA variants. -/
theorem fitFinish_W (sqrtq : ℚ → ℚ) (obj1 : SpherizeObj) (n d r : ℕ)
    (sigma : List ℚ) (vt : Mat)
    (hok : (Spherize.fitFinish sqrtq obj1 n d r sigma vt).2 = none) :
    (Spherize.fitFinish sqrtq obj1 n d r sigma vt).1.W =
      some (if obj1.method ∈ zcaMethods then
          matMul (scalarMul (sqrtq ((n : ℚ) - 1))
            (transposeM (List.zipWith (fun row s => row.map (fun x => x / s)) vt
              (sigma.map (fun s => s + obj1.epsilon))))) vt
        else
          scalarMul (sqrtq ((n : ℚ) - 1))
            (transposeM (List.zipWith (fun row s => row.map (fun x => x / s)) vt
              (sigma.map (fun s => s + obj1.epsilon))))) := by
  simp only [Spherize.fitFinish] at hok ⊢
  split_ifs at hok ⊢ <;> simp_all

/-- Claim C2: whenever `Spherize.fit` accepts a reference matrix whose
centering/standardization step produced `xc`, the learned projection matrix
is exactly the one the spec describes: `Σ` extended (when `n ≤ d`) by
repeating its `r`-th entry up to length `d`, `epsilon` added to every entry,
`W = transpose(Vᵗ / Σ) * sqrt(n-1)`, right-multiplied by `Vᵗ` for the ZCA
variants. -/
theorem C2_projection_formula (sqrtq : ℚ → ℚ) (svd : Mat → SVDResult)
    (obj obj1 : SpherizeObj) (x xc : Mat)
    (hpre : Spherize.preprocess sqrtq obj x = (obj1, Except.ok xc))
    (hok : (Spherize.fit sqrtq svd obj x).2 = none) :
    (Spherize.fit sqrtq svd obj x).1.W =
      some (specW (svd xc).Sigma (svd xc).Vt (numRows xc) (numCols xc)
        (rankQ xc) obj.epsilon sqrtq obj.method) := by
  have hfst : (Spherize.preprocess sqrtq obj x).1 = obj1 := by rw [hpre]
  have heps : obj1.epsilon = obj.epsilon := by
    rw [← hfst]
    exact (preprocess_config sqrtq obj x).1
  have hmethod : obj1.method = obj.method := by
    rw [← hfst]
    exact (preprocess_config sqrtq obj x).2.1
  rw [fit_eq, hpre] at hok ⊢
  simp only [Spherize.fitCore] at hok ⊢
  split_ifs at hok ⊢ with h1 h2 h3 h4
  · rw [fitFinish_W _ _ _ _ _ _ _ hok, heps, hmethod]
    simp only [specW, specSigma, if_pos h2]
  · rw [fitFinish_W _ _ _ _ _ _ _ hok, heps, hmethod]
    simp only [specW, specSigma, if_neg h2]

theorem C2_projection_formula_witness :
    (Spherize.fit (fun _ => 1) (fun _ => SVDResult.mk [1,1] [[1,0],[0,1]])
      objPCAplain C2x).2 = none ∧
    (Spherize.fit (fun _ => 1) (fun _ => SVDResult.mk [1,1] [[1,0],[0,1]])
      objPCAplain C2x).1.W =
      some (specW [1,1] [[1,0],[0,1]] (numRows C2x) (numCols C2x) (rankQ C2x)
        objPCAplain.epsilon (fun _ => 1) objPCAplain.method) := by
  have hpre : Spherize.preprocess (fun _ => 1) objPCAplain C2x =
      (objPCAplain, Except.ok C2x) :=
    preprocess_plain _ _ _ (by simp [objPCAplain, corMethods]) rfl
  have hr : rankQ C2x = 2 := by
    norm_num [C2x, rankQ, rankAux, elimRow, List.findIdx?_cons]
  have hn : numRows C2x = 3 := by simp [C2x, numRows]
  have hd : numCols C2x = 2 := by simp [C2x, numCols]
  have hok : (Spherize.fit (fun _ => 1) (fun _ => SVDResult.mk [1,1] [[1,0],[0,1]])
      objPCAplain C2x).2 = none := by
    rw [fit_eq, hpre]
    simp only [Spherize.fitCore]
    rw [hr, hn, hd]
    norm_num [Spherize.fitFinish, zcaMethods, numCols, transposeM, matMul, dotQ,
      scalarMul, List.range_succ, objPCAplain]
  exact ⟨hok, C2_projection_formula _ _ _ _ _ _ hpre hok⟩

/-! ### Dimension lemmas for the assertion analysis -/

theorem rankAux_le (fuel : ℕ) (m : List (List ℚ)) : rankAux fuel m ≤ m.length := by
  induction fuel generalizing m with
  | zero => cases m <;> simp [rankAux]
  | succ k ih =>
    cases m with
    | nil => simp [rankAux]
    | cons r rest =>
      simp only [rankAux]
      cases hf : r.findIdx? (fun x => decide (x ≠ 0)) with
      | none =>
        exact le_trans (ih rest) (by simp)
      | some j =>
        have := ih (rest.map (elimRow r j))
        simp only [List.length_map] at this
        simp only [List.length_cons]
        omega

/-- The Gaussian-elimination rank never exceeds the number of rows. -/
theorem rankQ_le_rows (m : Mat) : rankQ m ≤ numRows m := rankAux_le _ _

theorem length_transposeM (m : Mat) : (transposeM m).length = numCols m := by
  simp [transposeM]

theorem row_length_transposeM (m : Mat) :
    ∀ row ∈ transposeM m, row.length = m.length := by
  intro row hrow
  simp only [transposeM, List.mem_map] at hrow
  obtain ⟨j, _, rfl⟩ := hrow
  simp

theorem numCols_scalarMul (c : ℚ) (m : Mat) :
    numCols (scalarMul c m) = numCols m := by
  cases m <;> simp [scalarMul, numCols]

theorem numCols_transposeM (m : Mat) :
    numCols (transposeM m) = if numCols m = 0 then 0 else m.length := by
  unfold transposeM
  rcases Nat.eq_zero_or_pos (numCols m) with h | h
  · rw [h]
    simp [numCols]
  · obtain ⟨k, hk⟩ : ∃ k, numCols m = k + 1 := ⟨numCols m - 1, by omega⟩
    rw [hk]
    simp [List.range_succ_eq_map, numCols]

theorem numCols_matMul (a b : Mat) :
    numCols (matMul a b) = if a.length = 0 then 0 else numCols b := by
  cases a with
  | nil => simp [matMul, numCols]
  | cons r rest => simp [matMul, numCols, length_transposeM]

/-- Under the dimensions numpy guarantees for `full_matrices=True` SVD output
(`Σ` of length `d` after extension, `Vt` a `d × d` matrix), `fitFinish`
cannot fail an assertion as long as the ZCA branch is entered with `r = d`. -/
theorem fitFinish_no_assert (sqrtq : ℚ → ℚ) (obj1 : SpherizeObj) (n d r : ℕ)
    (sigma : List ℚ) (vt : Mat)
    (hsig : sigma.length = d) (hvt : vt.length = d)
    (hrect : ∀ row ∈ vt, row.length = d)
    (hzca : obj1.method ∈ zcaMethods → r = d) :
    (Spherize.fitFinish sqrtq obj1 n d r sigma vt).2 ≠ some PyError.assertionFailure := by
  simp only [Spherize.fitFinish]
  set sigma' := sigma.map (fun s => s + obj1.epsilon) with hsigd
  set inner := List.zipWith (fun row s => row.map (fun x => x / s)) vt sigma'
    with hinnerd
  set w0 := scalarMul (sqrtq ((n : ℚ) - 1)) (transposeM inner) with hw0d
  have hsig'_len : sigma'.length = d := by simp [hsigd, hsig]
  have hinner_len : inner.length = d := by simp [hinnerd, hvt, hsig'_len]
  have hinner_cols : numCols inner = d := by
    cases hv : vt with
    | nil =>
      rw [hv] at hvt
      simp only [hinnerd, hv, List.zipWith_nil_left]
      simp [numCols, ← hvt]
    | cons row0 rest =>
      have hd1 : 1 ≤ d := by rw [hv] at hvt; simp at hvt; omega
      cases hs : sigma' with
      | nil => rw [hs] at hsig'_len; simp at hsig'_len; omega
      | cons s0 ss =>
        have hrow0 : row0.length = d := hrect row0 (by rw [hv]; exact List.mem_cons_self _ _)
        simp [hinnerd, hv, hs, numCols, hrow0]
  have hw0_cols : numCols w0 = d := by
    rw [hw0d, numCols_scalarMul, numCols_transposeM, hinner_cols, hinner_len]
    split_ifs with h0
    · omega
    · rfl
  have hw0_len : w0.length = d := by
    rw [hw0d]
    simp [scalarMul, length_transposeM, hinner_cols]
  have hw0_rows : ∀ row ∈ w0, row.length = d := by
    intro row hr
    rw [hw0d] at hr
    simp only [scalarMul, List.mem_map] at hr
    obtain ⟨row0, hr0, rfl⟩ := hr
    simp [row_length_transposeM inner row0 hr0, hinner_len]
  by_cases hz : obj1.method ∈ zcaMethods
  · have hrd : r = d := hzca hz
    rw [if_pos hz, if_neg (by omega : ¬r ≠ d)]
    have hall : w0.all (fun row => decide (row.length = vt.length)) = true := by
      rw [List.all_eq_true]
      intro row hrw
      simp [hvt, hw0_rows row hrw]
    rw [if_pos (by simpa using hall)]
    have hw1 : numCols (matMul w0 vt) = d := by
      rw [numCols_matMul]
      split_ifs with h0
      · omega
      · cases hv : vt with
        | nil =>
          rw [hv] at hvt
          simp at hvt
          omega
        | cons row0 rest =>
          simp [numCols, hrect row0 (by rw [hv]; exact List.mem_cons_self _ _)]
    rw [if_neg (by omega : ¬numCols (matMul w0 vt) ≠ d)]
    simp
  · rw [if_neg hz, if_neg (by omega : ¬numCols w0 ≠ d)]
    simp

/-- Claim C3, amended: for inputs that pass the step-3 rank gate, the internal
assertions of `Spherize.fit` cannot fail **provided additionally** that
`r ≠ n` (which holds for mean-centered reference data but not for uncentered
full-rank square data) and that, for the ZCA variants, `r = d`.  Without these
extra conditions the assertions are reachable from user input (see the
counterexample): the rank gate alone does not guarantee them. -/
theorem C3_asserts_amended (sqrtq : ℚ → ℚ) (svd : Mat → SVDResult)
    (obj obj1 : SpherizeObj) (x xc : Mat)
    (hpre : Spherize.preprocess sqrtq obj x = (obj1, Except.ok xc))
    (hgate : rankQ xc = numCols xc ∨ (rankQ xc : ℤ) = (numRows xc : ℤ) - 1)
    (hrn : rankQ xc ≠ numRows xc)
    (hzca : obj.method ∈ zcaMethods → rankQ xc = numCols xc)
    (hsigma : (svd xc).Sigma.length = min (numRows xc) (numCols xc))
    (hvt_len : (svd xc).Vt.length = numCols xc)
    (hvt_rect : ∀ row ∈ (svd xc).Vt, row.length = numCols xc) :
    (Spherize.fit sqrtq svd obj x).2 ≠ some PyError.assertionFailure := by
  have hfst : (Spherize.preprocess sqrtq obj x).1 = obj1 := by rw [hpre]
  have hmethod : obj1.method = obj.method := by
    rw [← hfst]
    exact (preprocess_config sqrtq obj x).2.1
  rw [fit_eq, hpre]
  simp only [Spherize.fitCore]
  have hgate' : ¬((rankQ xc : ℤ) ≠ (numRows xc : ℤ) - 1 ∧ rankQ xc ≠ numCols xc) := by
    rcases hgate with h | h
    · exact fun hc => hc.2 h
    · exact fun hc => hc.1 h
  rw [if_neg hgate']
  by_cases hnd : numRows xc ≤ numCols xc
  · rw [if_pos hnd]
    have hsl : (svd xc).Sigma.length = numRows xc := by rw [hsigma]; omega
    have hle := rankQ_le_rows xc
    have hr1 : (rankQ xc : ℤ) = (numRows xc : ℤ) - 1 := by
      rcases hgate with h | h
      · omega
      · exact h
    rw [if_neg (by simp [hsl]), if_neg (not_not_intro hr1)]
    apply fitFinish_no_assert
    · rw [List.length_append, List.length_take, List.length_replicate, hsl]
      omega
    · exact hvt_len
    · exact hvt_rect
    · intro h
      rw [hmethod] at h
      exact hzca h
  · rw [if_neg hnd]
    apply fitFinish_no_assert
    · rw [hsigma]
      omega
    · exact hvt_len
    · exact hvt_rect
    · intro h
      rw [hmethod] at h
      exact hzca h

theorem C3_asserts_amended_witness :
    (Spherize.fit (fun _ => 1) (fun _ => SVDResult.mk [1,1] [[1,0],[0,1]])
      objPCAplain C2x).2 ≠ some PyError.assertionFailure := by
  have hr : rankQ C2x = 2 := by
    norm_num [C2x, rankQ, rankAux, elimRow, List.findIdx?_cons]
  exact C3_asserts_amended _ _ _ _ _ _
    (preprocess_plain _ _ _ (by simp [objPCAplain, corMethods]) rfl)
    (Or.inl (by rw [hr]; rfl))
    (by rw [hr]; simp [C2x, numRows])
    (by intro h; simp [objPCAplain, zcaMethods] at h)
    (by simp [C2x, numRows, numCols])
    (by simp [C2x, numCols])
    (by
      intro row hrow
      simp only [List.mem_cons, List.not_mem_nil, or_false] at hrow
      rcases hrow with rfl | rfl <;> simp [C2x, numCols])

theorem C3_asserts_counterexample :
    (rankQ C3x : ℤ) = (numRows C3x : ℤ) - 1 ∧
    (Spherize.fit (fun _ => 1)
      (fun _ => SVDResult.mk [1,1,1] [[1,0,0],[0,1,0],[0,0,1]])
      objZCAplain C3x).2 = some PyError.assertionFailure := by
  have hr : rankQ C3x = 2 := by
    norm_num [C3x, rankQ, rankAux, elimRow, List.findIdx?_cons]
  have hn : numRows C3x = 3 := by simp [C3x, numRows]
  have hd : numCols C3x = 3 := by simp [C3x, numCols]
  refine ⟨by rw [hr, hn]; norm_num, ?_⟩
  rw [fit_eq, preprocess_plain _ _ _ (by simp [objZCAplain, corMethods]) rfl]
  simp only [Spherize.fitCore]
  rw [hr, hn, hd]
  norm_num [Spherize.fitFinish, zcaMethods, objZCAplain]

/-- The numeric content of a projection result does not depend on the
`return_numpy` flag passed to `project`. -/
theorem project_vals (rn : Bool) (cols : List String) (w? : Option Mat)
    (xs : Mat) :
    (Spherize.project rn cols w? xs).map SpherizeOutput.vals =
      (Spherize.project false cols w? xs).map SpherizeOutput.vals := by
  cases w? with
  | none => rfl
  | some w =>
    simp only [Spherize.project]
    by_cases h : (xs.all fun r => decide (r.length = w.length)) = true
    · rw [if_pos h, if_pos h]
      cases rn <;> rfl
    · rw [if_neg h, if_neg h]

/-- The spec-side "reapply the stored parameters" map agrees with the scaling
step of `Spherize.transform`. -/
theorem scaledQuery_spec (obj : SpherizeObj) (xv : Mat) :
    specApplyStored obj xv = (Spherize.scaledQuery obj xv).toOption := by
  unfold specApplyStored Spherize.scaledQuery
  split_ifs with h1 h2
  · cases obj.standard_scaler with
    | none => rfl
    | some sc =>
      simp only [scalerTransformOpt, scalerTransform]
      split_ifs <;> rfl
  · cases obj.mean_centerer with
    | none => rfl
    | some mc =>
      simp only [centererTransformOpt, centererTransform]
      split_ifs <;> rfl
  · rfl

/-- Claim C4: `Spherize.transform` applies exactly the centering /
standardization parameters stored in the fitted instance (never statistics of
the query matrix) and returns that matrix multiplied by the stored `W`; the
`return_numpy` flag changes only the output representation, never the
values. -/
theorem C4_transform_correct (obj : SpherizeObj) (x : DataFrame) :
    (∀ b : Bool,
      (Spherize.transform { obj with return_numpy := b } x).map SpherizeOutput.vals =
        (Spherize.transform obj x).map SpherizeOutput.vals)
    ∧ (∀ out, Spherize.transform obj x = Except.ok out →
        ∃ w xs, obj.W = some w ∧ specApplyStored obj x.values = some xs ∧
          out.vals = matMul xs w) := by
  constructor
  · intro b
    unfold Spherize.transform
    have hsq : Spherize.scaledQuery { obj with return_numpy := b } x.values =
        Spherize.scaledQuery obj x.values := rfl
    rw [hsq]
    cases hs : Spherize.scaledQuery obj x.values with
    | error e => rfl
    | ok xs =>
      simp only [Spherize.transformCore]
      rw [project_vals b, project_vals obj.return_numpy]
  · intro out hout
    unfold Spherize.transform at hout
    cases hs : Spherize.scaledQuery obj x.values with
    | error e =>
      rw [hs] at hout
      exact absurd hout (by simp [Spherize.transformCore])
    | ok xs =>
      rw [hs] at hout
      simp only [Spherize.transformCore] at hout
      cases hw : obj.W with
      | none =>
        rw [hw] at hout
        exact absurd hout (by simp [Spherize.project])
      | some w =>
        rw [hw] at hout
        simp only [Spherize.project] at hout
        by_cases hg : (xs.all fun r => decide (r.length = w.length)) = true
        · rw [if_pos hg] at hout
          refine ⟨w, xs, rfl, ?_, ?_⟩
          · rw [scaledQuery_spec, hs]
            rfl
          · injection hout with hout'
            rw [← hout']
            cases obj.return_numpy <;> rfl
        · rw [if_neg hg] at hout
          exact absurd hout (by simp)

theorem transformC45_eval : Spherize.transform objC45 xq45 =
    Except.ok (SpherizeOutput.df { columns := pcLabels 2, values := [[1,2]] }) := by
  have hsq : Spherize.scaledQuery objC45 [[1,2]] = Except.ok [[1,2]] := by
    simp [Spherize.scaledQuery, objC45, corMethods]
  unfold Spherize.transform
  rw [show xq45.values = [[1,2]] from rfl, hsq]
  simp only [Spherize.transformCore]
  norm_num [Spherize.project, objC45, pcaMethods, numCols, matMul,
    transposeM, dotQ, List.range_succ, xq45]

theorem C4_transform_correct_witness :
    (Spherize.transform { objC45 with return_numpy := true } xq45).map
        SpherizeOutput.vals =
      (Spherize.transform objC45 xq45).map SpherizeOutput.vals ∧
    ∃ w xs, objC45.W = some w ∧ specApplyStored objC45 xq45.values = some xs ∧
      (SpherizeOutput.df { columns := pcLabels 2, values := [[1,2]] }).vals =
        matMul xs w := by
  exact ⟨(C4_transform_correct objC45 xq45).1 true,
    (C4_transform_correct objC45 xq45).2 _ transformC45_eval⟩

/-- The scaling step of `transform` preserves the number of rows. -/
theorem scaledQuery_length (obj : SpherizeObj) (xv : Mat) (xs : Mat)
    (h : Spherize.scaledQuery obj xv = Except.ok xs) : xs.length = xv.length := by
  unfold Spherize.scaledQuery at h
  split_ifs at h with h1 h2
  · cases hsc : obj.standard_scaler with
    | none =>
      rw [hsc] at h
      exact absurd h (by simp [scalerTransformOpt])
    | some sc =>
      rw [hsc] at h
      simp only [scalerTransformOpt, scalerTransform] at h
      split_ifs at h
      · injection h with h'
        rw [← h']
        simp
  · cases hmc : obj.mean_centerer with
    | none =>
      rw [hmc] at h
      exact absurd h (by simp [centererTransformOpt])
    | some mc =>
      rw [hmc] at h
      simp only [centererTransformOpt, centererTransform] at h
      split_ifs at h
      · injection h with h'
        rw [← h']
        simp
  · injection h with h'
    rw [h']

/-- Claim C5: the column labels of a dataframe returned by
`Spherize.transform` are the ordinal principal-component labels
`PC1 .. PCd` (with `d` the fitted projection dimension) for the PCA-family
methods, and the query's own column identities for the ZCA-family methods. -/
theorem C5_output_columns (obj : SpherizeObj) (x : DataFrame) (f : DataFrame)
    (hne : x.values ≠ [])
    (h : Spherize.transform obj x = Except.ok (SpherizeOutput.df f)) :
    ∃ w, obj.W = some w ∧
      f.columns = if obj.method ∈ pcaMethods then pcLabels w.length
        else x.columns := by
  unfold Spherize.transform at h
  cases hs : Spherize.scaledQuery obj x.values with
  | error e =>
    rw [hs] at h
    exact absurd h (by simp [Spherize.transformCore])
  | ok xs =>
    rw [hs] at h
    simp only [Spherize.transformCore] at h
    cases hw : obj.W with
    | none =>
      rw [hw] at h
      exact absurd h (by simp [Spherize.project])
    | some w =>
      rw [hw] at h
      simp only [Spherize.project] at h
      by_cases hg : (xs.all fun r => decide (r.length = w.length)) = true
      · rw [if_pos hg] at h
        cases hb : obj.return_numpy with
        | true =>
          rw [hb, if_pos rfl] at h
          injection h with h'
          simp at h'
        | false =>
          rw [hb, if_neg (by simp)] at h
          injection h with h'
          injection h' with h2
          refine ⟨w, rfl, ?_⟩
          rw [← h2]
          by_cases hp : obj.method ∈ pcaMethods
          · rw [if_pos hp, if_pos hp]
            have hlen : xs.length = x.values.length := scaledQuery_length _ _ _ hs
            cases hxs : xs with
            | nil =>
              rw [hxs] at hlen
              simp only [List.length_nil] at hlen
              exact absurd (List.length_eq_zero.mp hlen.symm) hne
            | cons r rest =>
              have hr : r.length = w.length := by
                rw [hxs] at hg
                simp only [List.all_cons, Bool.and_eq_true, decide_eq_true_eq] at hg
                exact hg.1
              simp [numCols, hr]
          · rw [if_neg hp, if_neg hp]
      · rw [if_neg hg] at h
        exact absurd h (by simp)

theorem C5_output_columns_witness :
    ∃ w, objC45.W = some w ∧
      (DataFrame.mk (pcLabels 2) [[1,2]]).columns =
        if objC45.method ∈ pcaMethods then pcLabels w.length
        else xq45.columns := by
  exact C5_output_columns objC45 xq45 _ (by simp [xq45]) transformC45_eval

/-- Claim C10, amended: a `fit` call failing with the degenerate-input or
rank-deficiency error does **not** clear the projection state: the `W`
attribute keeps whatever value it had before the call (so a transform after a
failed re-fit can silently succeed with the previous projection, contrary to
the original claim). -/
theorem C10_failed_fit_state (sqrtq : ℚ → ℚ) (svd : Mat → SVDResult)
    (obj : SpherizeObj) (x : Mat) (e : PyError)
    (hf : (Spherize.fit sqrtq svd obj x).2 = some e)
    (he : e = PyError.degenerateInput ∨ e = PyError.rankDeficiency) :
    (Spherize.fit sqrtq svd obj x).1.W = obj.W := by
  have hW : (Spherize.preprocess sqrtq obj x).1.W = obj.W :=
    (preprocess_config sqrtq obj x).2.2.2.2
  rw [fit_eq] at hf ⊢
  cases hres : (Spherize.preprocess sqrtq obj x).2 with
  | error e' =>
    rw [hres] at hf
    simp only [Spherize.fitCore] at hf ⊢
    exact hW
  | ok xc =>
    rw [hres] at hf
    simp only [Spherize.fitCore] at hf ⊢
    split_ifs at hf ⊢ with h1 h2 h3 h4
    · exact hW
    · exact hW
    · exact hW
    · rcases he with rfl | rfl
      · exact absurd hf (fitFinish_errors _ _ _ _ _ _ _).2
      · exact absurd hf (fitFinish_errors _ _ _ _ _ _ _).1
    · rcases he with rfl | rfl
      · exact absurd hf (fitFinish_errors _ _ _ _ _ _ _).2
      · exact absurd hf (fitFinish_errors _ _ _ _ _ _ _).1

theorem fit1_eval : Spherize.fit sq1 svdId2 objPCAcent C2x = (objAfterFit1, none) := by
  have hmeans : centererFit C2x = [1/3, 1/3] := by
    norm_num [centererFit, matCol, colMean, numCols, C2x, List.range_succ]
  have hct : centererTransform [1/3, 1/3] C2x = Except.ok C10xc := by
    norm_num [centererTransform, C2x, C10xc]
  have hpre : Spherize.preprocess sq1 objPCAcent C2x =
      ({ objPCAcent with mean_centerer := some [1/3, 1/3] }, Except.ok C10xc) := by
    rw [preprocess_center _ _ _ (by simp [objPCAcent, corMethods]) rfl, hmeans, hct]
  have hr : rankQ C10xc = 2 := by
    norm_num [C10xc, rankQ, rankAux, elimRow, List.findIdx?_cons]
  have hn : numRows C10xc = 3 := by simp [C10xc, numRows]
  have hd : numCols C10xc = 2 := by simp [C10xc, numCols]
  rw [fit_eq, hpre]
  simp only [Spherize.fitCore]
  rw [hr, hn, hd]
  norm_num [Spherize.fitFinish, zcaMethods, objPCAcent, objAfterFit1, numCols,
    transposeM, matMul, dotQ, scalarMul, List.range_succ, svdId2, sq1]

theorem fit2_eval : Spherize.fit sq1 svdId2 objAfterFit1 C10xb =
    (objAfterFit2, some PyError.rankDeficiency) := by
  have hmeans : centererFit C10xb = [3/5, 3/5] := by
    norm_num [centererFit, matCol, colMean, numCols, C10xb, List.range_succ]
  have hct : centererTransform [3/5, 3/5] C10xb = Except.ok C10xbc := by
    norm_num [centererTransform, C10xb, C10xbc]
  have hpre : Spherize.preprocess sq1 objAfterFit1 C10xb =
      ({ objAfterFit1 with mean_centerer := some [3/5, 3/5] }, Except.ok C10xbc) := by
    rw [preprocess_center _ _ _ (by simp [objAfterFit1, corMethods]) rfl, hmeans, hct]
  have hr : rankQ C10xbc = 1 := by
    norm_num [C10xbc, rankQ, rankAux, elimRow, List.findIdx?_cons]
  have hn : numRows C10xbc = 5 := by simp [C10xbc, numRows]
  have hd : numCols C10xbc = 2 := by simp [C10xbc, numCols]
  rw [fit_eq, hpre]
  simp only [Spherize.fitCore]
  rw [hr, hn, hd]
  norm_num [objAfterFit1, objAfterFit2]

theorem C10_failed_fit_counterexample :
    (Spherize.fit sq1 svdId2 objPCAcent C2x).2 = none ∧
    (Spherize.fit sq1 svdId2 (Spherize.fit sq1 svdId2 objPCAcent C2x).1 C10xb).2 =
      some PyError.rankDeficiency ∧
    Spherize.transform
        (Spherize.fit sq1 svdId2 (Spherize.fit sq1 svdId2 objPCAcent C2x).1 C10xb).1
        xq45 =
      Except.ok (SpherizeOutput.df { columns := pcLabels 2, values := [[2/5, 7/5]] }) := by
  have h1 : (Spherize.fit sq1 svdId2 objPCAcent C2x).1 = objAfterFit1 := by
    rw [fit1_eval]
  refine ⟨by rw [fit1_eval], by rw [h1, fit2_eval], ?_⟩
  rw [h1, fit2_eval]
  have hsq : Spherize.scaledQuery objAfterFit2 [[1,2]] = Except.ok [[2/5, 7/5]] := by
    have hnc : objAfterFit2.method ∉ corMethods := by simp [objAfterFit2, corMethods]
    unfold Spherize.scaledQuery
    rw [if_neg hnc, if_pos (show objAfterFit2.center = true from rfl)]
    norm_num [objAfterFit2, centererTransformOpt, centererTransform]
  unfold Spherize.transform
  rw [show xq45.values = [[1,2]] from rfl, hsq]
  simp only [Spherize.transformCore]
  norm_num [Spherize.project, objAfterFit2, pcaMethods, numCols, matMul,
    transposeM, dotQ, List.range_succ, xq45]

theorem C10_failed_fit_state_witness :
    (Spherize.fit sq1 svdId2 objAfterFit1 C10xb).1.W = objAfterFit1.W := by
  exact C10_failed_fit_state sq1 svdId2 objAfterFit1 C10xb PyError.rankDeficiency
    (by rw [fit2_eval]) (Or.inr rfl)

/-- Claim C8, amended: neither transform validates shape against the fitted
state with a dedicated error.  `Spherize.transform` on a query whose column
count differs from the fitted dimension does fail, but only with the
dimension-mismatch error raised inside the scaler / the numpy matrix
multiplication; `RobustMAD.transform` performs no validation at all: with
column identities differing from the fit-time ones it proceeds via pandas
label alignment, and every output column whose label was not seen at fit time
consists solely of missing values. -/
theorem C8_shape_amended :
    (∀ (obj : SpherizeObj) (x : DataFrame) (w : Mat),
      obj.W = some w →
      (obj.method ∈ corMethods →
        ∃ sc, obj.standard_scaler = some sc ∧ sc.mean.length = w.length) →
      (obj.method ∉ corMethods → obj.center = true →
        ∃ mc, obj.mean_centerer = some mc ∧ mc.length = w.length) →
      x.values ≠ [] →
      numCols x.values ≠ w.length →
      ∃ e, Spherize.transform obj x = Except.error e)
    ∧ (∀ (st : MADState) (x : MADFrame),
        x.columns ≠ st.index →
        (RobustMAD.transform st x).columns = unionCols x.columns st.index ∧
        ∀ row ∈ (RobustMAD.transform st x).values,
          ∀ j, j < (unionCols x.columns st.index).length →
            (unionCols x.columns st.index).getD j "" ∉ st.index →
            row.getD j none = none) := by
  constructor
  · intro obj x w hw hcor hcen hne hcols
    obtain ⟨r0, rest, hx⟩ : ∃ r0 rest, x.values = r0 :: rest := by
      cases hxv : x.values with
      | nil => exact absurd hxv hne
      | cons a b => exact ⟨a, b, rfl⟩
    have hr0 : r0.length = numCols x.values := by rw [hx]; rfl
    unfold Spherize.transform Spherize.scaledQuery
    by_cases hc : obj.method ∈ corMethods
    · obtain ⟨sc, hsc, hlen⟩ := hcor hc
      rw [if_pos hc, hsc]
      simp only [scalerTransformOpt, scalerTransform]
      rw [if_neg ?hg]
      · exact ⟨PyError.shapeError, rfl⟩
      case hg =>
        rw [List.all_eq_true]
        intro hall
        have := hall r0 (by rw [hx]; exact List.mem_cons_self _ _)
        simp only [decide_eq_true_eq] at this
        exact hcols (by rw [← hr0, this, hlen])
    · rw [if_neg hc]
      by_cases hcb : obj.center = true
      · obtain ⟨mc, hmc, hlen⟩ := hcen hc hcb
        rw [if_pos hcb, hmc]
        simp only [centererTransformOpt, centererTransform]
        rw [if_neg ?hg2]
        · exact ⟨PyError.shapeError, rfl⟩
        case hg2 =>
          rw [List.all_eq_true]
          intro hall
          have := hall r0 (by rw [hx]; exact List.mem_cons_self _ _)
          simp only [decide_eq_true_eq] at this
          exact hcols (by rw [← hr0, this, hlen])
      · rw [if_neg hcb]
        simp only [Spherize.transformCore, Spherize.project, hw]
        rw [if_neg ?hg3]
        · exact ⟨PyError.shapeError, rfl⟩
        case hg3 =>
          rw [List.all_eq_true]
          intro hall
          have := hall r0 (by rw [hx]; exact List.mem_cons_self _ _)
          simp only [decide_eq_true_eq] at this
          exact hcols (by rw [← hr0, this])
  · intro st x hne
    unfold RobustMAD.transform
    rw [if_neg hne]
    refine ⟨rfl, ?_⟩
    intro row hrow j hj hnotmem
    simp only [List.mem_map] at hrow
    obtain ⟨row0, _, rfl⟩ := hrow
    have hj' : j < ((unionCols x.columns st.index).map (fun c =>
        madCell (serGet x.columns row0 c) (serGet st.index st.median c)
          (serGet st.index st.mad c) st.epsilon)).length := by
      simpa using hj
    rw [List.getD_eq_getElem _ _ hj', List.getElem_map]
    have hcst : (unionCols x.columns st.index).get ⟨j, hj⟩ =
        (unionCols x.columns st.index).getD j "" := by
      rw [List.getD_eq_getElem _ _ hj]
      rfl
    have hsg : serGet st.index st.median ((unionCols x.columns st.index).get ⟨j, hj⟩) = none := by
      unfold serGet
      rw [List.indexOf?_eq_none_iff.mpr ?hnm]
      case hnm =>
        intro y hy hbeq
        have hyc : y = (unionCols x.columns st.index).get ⟨j, hj⟩ := by
          simpa using hbeq
        apply hnotmem
        rw [← hcst, ← hyc]
        exact hy
    rw [show ((unionCols x.columns st.index)[j] : String) =
        (unionCols x.columns st.index).get ⟨j, hj⟩ from rfl]
    rw [hsg]
    cases serGet x.columns row0 ((unionCols x.columns st.index).get ⟨j, hj⟩) <;> rfl

theorem C8_shape_counterexample :
    RobustMAD.transform (RobustMAD.fit 0 madX0) (MADFrame.mk ["b"] [[some 5]]) =
      MADFrame.mk ["b", "a"] [[none, none]] := by
  simp [RobustMAD.transform, RobustMAD.fit, madX0, unionCols, serGet, madCell,
    List.indexOf?, List.findIdx?_cons]

theorem C8_shape_amended_witness :
    (∃ e, Spherize.transform objC45 (DataFrame.mk ["a"] [[1]]) = Except.error e) ∧
    ((RobustMAD.transform madSt0 (MADFrame.mk ["b"] [[some 5]])).columns =
        unionCols ["b"] ["a"] ∧
      ∀ row ∈ (RobustMAD.transform madSt0 (MADFrame.mk ["b"] [[some 5]])).values,
        ∀ j, j < (unionCols ["b"] ["a"]).length →
          (unionCols ["b"] ["a"]).getD j "" ∉ (["a"] : List String) →
          row.getD j none = none) := by
  constructor
  · exact C8_shape_amended.1 objC45 (DataFrame.mk ["a"] [[1]]) [[1,0],[0,1]] rfl
      (by intro h; simp [objC45, corMethods] at h)
      (by intro _ hcb; simp [objC45] at hcb)
      (by simp)
      (by simp [numCols])
  · exact C8_shape_amended.2 madSt0 (MADFrame.mk ["b"] [[some 5]]) (by simp [madSt0])

/-- scipy's `scale = 1/1.4826` divisor equals multiplication by 1.4826. -/
theorem colMAD_eq_specMAD (c : List (Option ℚ)) : colMAD c = specMAD c := by
  unfold colMAD specMAD colMedian
  cases medianQ (colClean c) with
  | none => rfl
  | some m =>
    show Option.map (fun raw => raw / madScaleFactor)
        (medianQ ((colClean c).map (fun v => |v - m|))) =
      Option.map (fun raw => raw * 1.4826)
        (medianQ ((colClean c).map (fun v => |v - m|)))
    congr 1
    funext raw
    rw [madScaleFactor, div_div_eq_mul_div, div_one]

/-- Claim C9, amended: `RobustMAD.fit` stores per column (missing values
omitted) the median and the MAD with the `1/1.4826` scale factor applied as a
divisor, keyed by the fit-time column identities; `RobustMAD.transform` on a
frame with the fitted column identities computes elementwise
`(value - median) / (mad + epsilon)`, and a value equal to its column's
stored median maps to exactly 0 **whenever `mad + epsilon ≠ 0`** (in
particular for the default positive epsilon).  At `mad + epsilon = 0` —
reachable with `epsilon = 0` on a constant column — the float division
`0.0/0.0` yields NaN, not 0 (see the counterexample). -/
theorem C9_robustmad_formulas (eps : ℚ) (x y : MADFrame)
    (hcols : y.columns = (RobustMAD.fit eps x).index) :
    ((RobustMAD.fit eps x).index = x.columns
      ∧ (RobustMAD.fit eps x).median =
          (List.range x.columns.length).map (fun j => medianQ (colClean (frameCol x j)))
      ∧ (RobustMAD.fit eps x).mad =
          (List.range x.columns.length).map (fun j => specMAD (frameCol x j)))
    ∧ (RobustMAD.transform (RobustMAD.fit eps x) y).values =
        y.values.map (fun row => (List.range x.columns.length).map (fun j =>
          madCell (row.getD j none) ((RobustMAD.fit eps x).median.getD j none)
            ((RobustMAD.fit eps x).mad.getD j none) eps))
    ∧ (∀ (v m md e : ℚ), md + e ≠ 0 →
        madCell (some v) (some m) (some md) e = some ((v - m) / (md + e)))
    ∧ (∀ (m md e : ℚ), md + e ≠ 0 →
        madCell (some m) (some m) (some md) e = some 0)
    ∧ (∀ m : ℚ, madCell (some m) (some m) (some 0) 0 = none) := by
  refine ⟨⟨rfl, rfl, ?_⟩, ?_, fun v m md e h => ?_, fun m md e h => ?_, fun m => ?_⟩
  · simp only [RobustMAD.fit]
    exact List.map_congr_left (fun j _ => colMAD_eq_specMAD (frameCol x j))
  · unfold RobustMAD.transform
    rw [if_pos hcols]
    rfl
  · simp only [madCell]
    rw [if_neg h]
  · simp only [madCell]
    rw [if_neg h]
    simp
  · simp [madCell]

theorem C9_robustmad_formulas_witness :
    (RobustMAD.transform (RobustMAD.fit 0 madX0) (MADFrame.mk ["a"] [[some 2]])).values =
      (MADFrame.mk ["a"] [[some 2]]).values.map (fun row =>
        (List.range madX0.columns.length).map (fun j =>
          madCell (row.getD j none) ((RobustMAD.fit 0 madX0).median.getD j none)
            ((RobustMAD.fit 0 madX0).mad.getD j none) 0)) ∧
    madCell (some 2) (some 2) (some 1) 0 = some 0 ∧
    madCell (some 2) (some 2) (some 0) 0 = none := by
  refine ⟨(C9_robustmad_formulas 0 madX0 (MADFrame.mk ["a"] [[some 2]]) rfl).2.1, ?_, ?_⟩
  · exact (C9_robustmad_formulas 0 madX0 (MADFrame.mk ["a"] [[some 2]]) rfl).2.2.2.1
      2 1 0 (by norm_num)
  · exact (C9_robustmad_formulas 0 madX0 (MADFrame.mk ["a"] [[some 2]]) rfl).2.2.2.2 2

/-- The original C9 claim fails at `mad + epsilon = 0`: fitting `RobustMAD`
with `epsilon = 0` on a constant column stores median 3 and MAD 0, and
transforming the median value itself yields NaN (`0.0/0.0`), not 0. -/
theorem C9_robustmad_counterexample :
    (RobustMAD.fit 0 madConstX).median = [some 3] ∧
    (RobustMAD.fit 0 madConstX).mad = [some 0] ∧
    RobustMAD.transform (RobustMAD.fit 0 madConstX) (MADFrame.mk ["a"] [[some 3]]) =
      MADFrame.mk ["a"] [[none]] := by
  have hclean : colClean (frameCol madConstX 0) = [3, 3, 3] := by
    norm_num [madConstX, frameCol, colClean, List.filterMap_cons, List.filterMap_nil]
  have hcm : colMedian (frameCol madConstX 0) = some 3 := by
    unfold colMedian
    rw [hclean]
    norm_num [medianQ, sortQ, insertSorted, medianSorted, List.foldr_cons,
      List.foldr_nil]
  have hcmad : colMAD (frameCol madConstX 0) = some 0 := by
    unfold colMAD
    rw [hcm]
    show (medianQ ((colClean (frameCol madConstX 0)).map (fun v => |v - 3|))).map
        (fun raw => raw / madScaleFactor) = some 0
    have hdev : (colClean (frameCol madConstX 0)).map (fun v => |v - (3:ℚ)|) =
        [0, 0, 0] := by
      rw [hclean]
      norm_num
    rw [hdev]
    norm_num [medianQ, sortQ, insertSorted, medianSorted, madScaleFactor,
      List.foldr_cons, List.foldr_nil]
  have hrange : List.range (RobustMAD.fit 0 madConstX).index.length = [0] := rfl
  have hmed : (RobustMAD.fit 0 madConstX).median = [some 3] := by
    show (List.range madConstX.columns.length).map
        (fun j => colMedian (frameCol madConstX j)) = [some 3]
    rw [show List.range madConstX.columns.length = [0] from rfl]
    rw [List.map_cons, List.map_nil, hcm]
  have hmad : (RobustMAD.fit 0 madConstX).mad = [some 0] := by
    show (List.range madConstX.columns.length).map
        (fun j => colMAD (frameCol madConstX j)) = [some 0]
    rw [show List.range madConstX.columns.length = [0] from rfl]
    rw [List.map_cons, List.map_nil, hcmad]
  refine ⟨hmed, hmad, ?_⟩
  unfold RobustMAD.transform
  rw [if_pos (show (MADFrame.mk ["a"] [[some 3]]).columns =
    (RobustMAD.fit 0 madConstX).index from rfl)]
  rw [hrange]
  simp only [List.map_cons, List.map_nil, hmed, hmad]
  norm_num [madCell, show (RobustMAD.fit 0 madConstX).epsilon = 0 from rfl]

/-! ### Standardization arithmetic for the "-cor" variants -/

theorem sum_map_center_div (l : List ℚ) (mu s : ℚ) :
    (l.map (fun v => (v - mu) / s)).sum = (l.sum - l.length * mu) / s := by
  induction l with
  | nil => simp
  | cons a t ih =>
    rw [List.map_cons, List.sum_cons, ih, div_add_div_same]
    congr 1
    simp only [List.length_cons, List.sum_cons]
    push_cast
    ring

theorem sum_map_sq_center_div (l : List ℚ) (mu s : ℚ) :
    (l.map (fun v => ((v - mu) / s) ^ 2)).sum =
      (l.map (fun v => (v - mu) ^ 2)).sum / s ^ 2 := by
  induction l with
  | nil => simp
  | cons a t ih =>
    rw [List.map_cons, List.sum_cons, ih, List.map_cons, List.sum_cons,
      div_pow, div_add_div_same]

theorem colMean_standardized (l : List ℚ) (s : ℚ) (hl : l ≠ []) :
    colMean (l.map (fun v => (v - colMean l) / s)) = 0 := by
  have hn0 : l.length ≠ 0 := fun h => hl (List.length_eq_zero.mp h)
  have hn : (l.length : ℚ) ≠ 0 := Nat.cast_ne_zero.mpr hn0
  unfold colMean
  rw [List.length_map, sum_map_center_div]
  have hcancel : (l.length : ℚ) * (l.sum / l.length) = l.sum := by
    field_simp
  rw [hcancel]
  simp

theorem colVar_standardized (l : List ℚ) (s : ℚ) (hl : l ≠ [])
    (hs : s * s = colVar l) (hv : colVar l ≠ 0) :
    colVar (l.map (fun v => (v - colMean l) / s)) = 1 := by
  unfold colVar
  rw [colMean_standardized l s hl]
  simp only [sub_zero, List.map_map, List.length_map]
  have hcomp : ((fun x => x ^ 2) ∘ fun v => (v - colMean l) / s) =
      fun v => ((v - colMean l) / s) ^ 2 := rfl
  rw [hcomp, sum_map_sq_center_div, div_right_comm]
  have hfold : (l.map (fun v => (v - colMean l) ^ 2)).sum / (l.length : ℚ) =
      colVar l := rfl
  rw [hfold]
  have hs2 : s ^ 2 = colVar l := by rw [sq]; exact hs
  rw [hs2, div_self hv]

theorem colVar_nil : colVar ([] : List ℚ) = 0 := by simp [colVar, colMean]

theorem matCol_ne_nil_of_var_ne (x : Mat) (j : ℕ)
    (hv : colVar (matCol x j) ≠ 0) : matCol x j ≠ [] :=
  fun h => hv (h ▸ colVar_nil)

/-- Column `j` of the standardized matrix is column `j` of `x` shifted by its
mean and divided by its scale. -/
theorem matCol_scaled (sqrtq : ℚ → ℚ) (x : Mat) (j : ℕ)
    (hrect : ∀ row ∈ x, row.length = numCols x) (hj : j < numCols x) :
    matCol (x.map (fun r => List.zipWith (fun v ms => (v - ms.1) / ms.2) r
      ((scalerFit sqrtq x).mean.zip (scalerFit sqrtq x).scale))) j =
    (matCol x j).map (fun v =>
      (v - colMean (matCol x j)) / sqrtq (colVar (matCol x j))) := by
  unfold matCol
  rw [List.map_map, List.map_map]
  apply List.map_congr_left
  intro r hr
  simp only [Function.comp]
  have hmean_len : (scalerFit sqrtq x).mean.length = numCols x := by simp [scalerFit]
  have hscale_len : (scalerFit sqrtq x).scale.length = numCols x := by simp [scalerFit]
  have hjr : j < r.length := by rw [hrect r hr]; exact hj
  have hjz : j < ((scalerFit sqrtq x).mean.zip (scalerFit sqrtq x).scale).length := by
    rw [List.length_zip, hmean_len, hscale_len, min_self]
    exact hj
  have hjm : j < (scalerFit sqrtq x).mean.length := by rw [hmean_len]; exact hj
  have hjs : j < (scalerFit sqrtq x).scale.length := by rw [hscale_len]; exact hj
  have hr? : r[j]? = some (r.getD j 0) := by
    rw [List.getElem?_eq_getElem hjr, List.getD_eq_getElem _ _ hjr]
  have hmean_j : (scalerFit sqrtq x).mean.getD j 0 = colMean (matCol x j) := by
    rw [List.getD_eq_getElem _ _ hjm]
    simp [scalerFit]
  have hscale_j : (scalerFit sqrtq x).scale.getD j 0 = sqrtq (colVar (matCol x j)) := by
    rw [List.getD_eq_getElem _ _ hjs]
    simp [scalerFit]
  have hmz? : ((scalerFit sqrtq x).mean.zip (scalerFit sqrtq x).scale)[j]? =
      some ((scalerFit sqrtq x).mean.getD j 0, (scalerFit sqrtq x).scale.getD j 0) := by
    rw [List.getElem?_eq_getElem hjz, List.getElem_zip]
    rw [List.getD_eq_getElem _ _ hjm, List.getD_eq_getElem _ _ hjs]
  rw [List.getD_eq_getElem?_getD, List.getElem?_zipWith, hr?, hmz?]
  simp only [matCol, List.getD_eq_getElem?_getD] at hmean_j hscale_j
  simp [hmean_j, hscale_j]

/-- The zero-variance test of line 89 fires exactly when some column of the
reference matrix has (exactly) zero variance. -/
theorem anyVar_iff (sqrtq : ℚ → ℚ) (x : Mat) :
    ((scalerFit sqrtq x).var.any (fun v => decide (v = 0)) = true) ↔
      ∃ j < numCols x, colVar (matCol x j) = 0 := by
  rw [List.any_eq_true]
  constructor
  · rintro ⟨v, hv, hv0⟩
    simp only [scalerFit, List.mem_map, List.mem_range] at hv
    obtain ⟨j, hj, rfl⟩ := hv
    exact ⟨j, hj, by simpa using hv0⟩
  · rintro ⟨j, hj, h0⟩
    refine ⟨colVar (matCol x j), ?_, by simp [h0]⟩
    simp only [scalerFit, List.mem_map, List.mem_range]
    exact ⟨j, hj, rfl⟩

theorem preprocess_cor (sqrtq : ℚ → ℚ) (obj : SpherizeObj) (xv : Mat)
    (hm : obj.method ∈ corMethods) :
    Spherize.preprocess sqrtq obj xv =
      ({ obj with standard_scaler := some (scalerFit sqrtq xv) },
        if (scalerFit sqrtq xv).var.any (fun v => decide (v = 0))
          then Except.error PyError.degenerateInput
          else scalerTransform (scalerFit sqrtq xv) xv) := by
  simp only [Spherize.preprocess, if_pos hm]
  split_ifs <;> rfl

/-- Claim C7: for the "-cor" methods, `Spherize.fit` raises the
degenerate-input error exactly when some column of the reference matrix has
exactly zero variance — before any rank or SVD computation (the result does
not depend on the SVD oracle at all) — and otherwise the reference matrix is
standardized to zero mean and unit variance per column, with the scaler
(mean/variance/scale) stored on the instance for reuse at transform time.
The square-root oracle hypothesis `hsq` states that `np.sqrt` returns an
exact square root on the variances involved. -/
theorem C7_cor_variance_gate (sqrtq : ℚ → ℚ) (obj : SpherizeObj) (x : Mat)
    (hm : obj.method ∈ corMethods)
    (hrect : ∀ row ∈ x, row.length = numCols x)
    (hsq : ∀ v ∈ (scalerFit sqrtq x).var, sqrtq v * sqrtq v = v) :
    ((∃ j < numCols x, colVar (matCol x j) = 0) →
      ∀ svd : Mat → SVDResult,
        (Spherize.fit sqrtq svd obj x).2 = some PyError.degenerateInput ∧
        (Spherize.fit sqrtq svd obj x).1.standard_scaler =
          some (scalerFit sqrtq x))
    ∧ ((∀ j, j < numCols x → colVar (matCol x j) ≠ 0) →
      ∃ xs, (Spherize.preprocess sqrtq obj x).2 = Except.ok xs ∧
        (Spherize.preprocess sqrtq obj x).1.standard_scaler =
          some (scalerFit sqrtq x) ∧
        ∀ j, j < numCols x →
          colMean (matCol xs j) = 0 ∧ colVar (matCol xs j) = 1) := by
  constructor
  · intro hex svd
    have hany : (scalerFit sqrtq x).var.any (fun v => decide (v = 0)) = true :=
      (anyVar_iff sqrtq x).mpr hex
    rw [fit_eq, preprocess_cor sqrtq obj x hm]
    rw [if_pos hany]
    exact ⟨rfl, rfl⟩
  · intro hall
    rw [preprocess_cor sqrtq obj x hm]
    have hany : ¬((scalerFit sqrtq x).var.any (fun v => decide (v = 0)) = true) := by
      intro h
      obtain ⟨j, hj, h0⟩ := (anyVar_iff sqrtq x).mp h
      exact hall j hj h0
    rw [if_neg hany]
    have hmean_len : (scalerFit sqrtq x).mean.length = numCols x := by
      simp [scalerFit]
    have hguard : x.all
        (fun r => decide (r.length = (scalerFit sqrtq x).mean.length)) = true := by
      rw [List.all_eq_true]
      intro r hrw
      simp [hrect r hrw, hmean_len]
    refine ⟨x.map (fun r => List.zipWith (fun v ms => (v - ms.1) / ms.2) r
        ((scalerFit sqrtq x).mean.zip (scalerFit sqrtq x).scale)), ?_, rfl, ?_⟩
    · show scalerTransform (scalerFit sqrtq x) x = _
      simp only [scalerTransform]
      rw [if_pos hguard]
    · intro j hj
      rw [matCol_scaled sqrtq x j hrect hj]
      have hvj : colVar (matCol x j) ≠ 0 := hall j hj
      have hnil : matCol x j ≠ [] := matCol_ne_nil_of_var_ne x j hvj
      have hmem : colVar (matCol x j) ∈ (scalerFit sqrtq x).var := by
        simp only [scalerFit, List.mem_map, List.mem_range]
        exact ⟨j, hj, rfl⟩
      have hs : sqrtq (colVar (matCol x j)) * sqrtq (colVar (matCol x j)) =
          colVar (matCol x j) := hsq _ hmem
      exact ⟨colMean_standardized _ _ hnil, colVar_standardized _ _ hnil hs hvj⟩

theorem C7_cor_variance_gate_witness :
    ((Spherize.fit sqrtC7a svdId2 objPCAcor C7x1).2 = some PyError.degenerateInput ∧
      (Spherize.fit sqrtC7a svdId2 objPCAcor C7x1).1.standard_scaler =
        some (scalerFit sqrtC7a C7x1)) ∧
    (∃ xs, (Spherize.preprocess sq1 objPCAcor C7x2).2 = Except.ok xs ∧
      (Spherize.preprocess sq1 objPCAcor C7x2).1.standard_scaler =
        some (scalerFit sq1 C7x2) ∧
      ∀ j, j < numCols C7x2 →
        colMean (matCol xs j) = 0 ∧ colVar (matCol xs j) = 1) := by
  have hvars1 : (scalerFit sqrtC7a C7x1).var = [1/4, 0] := by
    norm_num [scalerFit, C7x1, matCol, colMean, colVar, numCols, List.range_succ]
  have hvars2 : (scalerFit sq1 C7x2).var = [1, 1] := by
    norm_num [scalerFit, C7x2, matCol, colMean, colVar, numCols, List.range_succ]
  constructor
  · exact (C7_cor_variance_gate sqrtC7a objPCAcor C7x1
      (by simp [objPCAcor, corMethods])
      (by
        intro r hr
        simp only [C7x1, List.mem_cons, List.not_mem_nil, or_false] at hr
        rcases hr with rfl | rfl <;> simp [C7x1, numCols])
      (by
        intro v hv
        rw [hvars1] at hv
        simp only [List.mem_cons, List.not_mem_nil, or_false] at hv
        rcases hv with rfl | rfl <;> norm_num [sqrtC7a])).1
      ⟨1, by simp [C7x1, numCols],
        by norm_num [C7x1, matCol, colVar, colMean]⟩ svdId2
  · exact (C7_cor_variance_gate sq1 objPCAcor C7x2
      (by simp [objPCAcor, corMethods])
      (by
        intro r hr
        simp only [C7x2, List.mem_cons, List.not_mem_nil, or_false] at hr
        rcases hr with rfl | rfl <;> simp [C7x2, numCols])
      (by
        intro v hv
        rw [hvars2] at hv
        simp only [List.mem_cons, List.not_mem_nil, or_false] at hv
        rcases hv with rfl | rfl <;> norm_num [sq1])).2
      (by
        intro j hj
        have hj2 : j = 0 ∨ j = 1 := by
          simp only [C7x2, numCols, List.length_cons, List.length_nil] at hj
          omega
        rcases hj2 with rfl | rfl <;> norm_num [C7x2, matCol, colVar, colMean])
